/-
Verification of the v6unix device-I/O subsystem: the device-switch table,
the error/null/kernel-memory pseudo-devices, and the errno rendering.

The Go sources embedded here are `dev.go` (device switch, errdev, nulldev,
memdev) and `errno.go` (Errno and its Error method).  Machine integers are
modelled as Nat/Int with explicit wrapping where the code casts; byte
buffers are `List Nat`; Go panics (out-of-range indexing / slicing) are
modelled by `Option` with `none` for a panic.
-/
import Mathlib

namespace V6unix

/-! ### Errno (errno.go)

`type Errno int8`; the named constants are `EPERM Errno = 1 + iota` up to
`EPIPE = 31`, plus `EFAULT Errno = 106`.  We model `Errno` as `Int`
(the int8 range is imposed as a hypothesis where a claim needs it). -/

def EPERM : Int := 1
def ENXIO : Int := 6
def ENOTTY : Int := 24
def EFAULT : Int := 106

/-- The `enames` table from errno.go: index 0 is the empty string, indices
1–31 are the names of the contiguous error codes. -/
def enames : List String :=
  ["", "EPERM", "ENOENT", "ESRCH", "EINTR", "EIO", "ENXIO", "E2BIG",
   "ENOEXEC", "EBADF", "ECHILD", "EAGAIN", "ENOMEM", "EACCES", "ENOTBLK",
   "EBUSY", "EEXIST", "EXDEV", "ENODEV", "ENOTDIR", "EISDIR", "EINVAL",
   "ENFILE", "EMFILE", "ENOTTY", "ETXTBSY", "EFBIG", "ENOSPC", "ESPIPE",
   "EROFS", "EMLINK", "EPIPE"]

/-- Rendering, `func (e Errno) Error() string` from errno.go:
if `e == EFAULT` return "EFAULT"; else if `0 <= e && int(e) < len(enames)
&& enames[e] != ""` return `enames[e]`; else return `fmt.Sprintf("Errno(%d)",
int(e))`. -/
def errnoError (e : Int) : String :=
  if e = EFAULT then "EFAULT"
  else if 0 ≤ e ∧ e.toNat < enames.length ∧ enames.getD e.toNat "" ≠ "" then
    enames.getD e.toNat ""
  else "Errno(" ++ toString e ++ ")"

/-! ### Data model for the device layer (dev.go)

The `Proc`, `System`, `procState`, `tty`/`TDev` struct declarations live
outside the embedded sources; the parts of their shape that dev.go uses
are modelled below from the spec. -/

/-- Modelled from the spec: the process snapshot record (`procState`), "a
fixed-size record per process containing at minimum a base address, a size
field, and a status-flag field".  dev.go reads and overwrites exactly
`flag`, `addr` (uint16) and `size`; the record's remaining bytes, which
dev.go copies through untouched, are kept abstract as `rest`. -/
structure ProcState where
  flag : Nat
  addr : Nat
  size : Nat
  rest : List Nat
deriving DecidableEq, Inhabited

/-- Modelled from the spec: one entry of the global process collection,
exposing its snapshot record (`procState`) and its per-process memory
buffer (`Mem`), the two parts dev.go consumes. -/
structure ProcEntry where
  procState : ProcState
  Mem : List Nat
deriving DecidableEq, Inhabited

/-- Modelled from the spec: one terminal, exposing the raw bytes of its
fixed-size device-state header (`TDev`), the only part dev.go reads. -/
structure TTYEntry where
  TDev : List Nat
deriving DecidableEq, Inhabited

/-- Modelled from the spec: the global collections the kernel-memory device
reads through the calling context (`p.Sys.Procs`, `p.Sys.TTY`). -/
structure Sys where
  Procs : List ProcEntry
  TTY : List TTYEntry
deriving DecidableEq, Inhabited

/-- The calling context: the global collections, the caller's own memory
buffer (`p.Mem`), and the mutable last-error field (`p.Error`, an Errno;
0 means no error). -/
structure Proc where
  Sys : Sys
  Mem : List Nat
  Error : Int
deriving DecidableEq, Inhabited

/-! ### Device switch table (dev.go) -/

/-- The device variants registered in `devtab` (the `ttydev` variant is an
external collaborator; only its identity matters here). -/
inductive device where
  | errdev
  | nulldev
  | memdev
  | ttydev
deriving DecidableEq, Inhabited

/-- The switch table,
`var devtab = []device{errdev{}, nulldev{}, memdev{}, nulldev{}, ttydev{}}`.
A slot is `Option device` so that the Go `devtab[major] == nil` test is
representable; in the actual table every slot is set. -/
def devtab : List (Option device) :=
  [some device.errdev, some device.nulldev, some device.memdev,
   some device.nulldev, some device.ttydev]

/-- Resolution, `func (p *Proc) dev(major uint8) device`:
if `int(major) >= len(devtab) || devtab[major] == nil { major = 0 }`;
return `devtab[major]`. -/
def dev (major : Nat) : Option device :=
  let m := if devtab.length ≤ major ∨ devtab.getD major none = none then 0
           else major
  devtab.getD m none

/-! ### Error device (dev.go) -/

def errdevOpen (p : Proc) (_minor : Nat) (_rw : Int) : Proc :=
  { p with Error := ENXIO }

def errdevRead (p : Proc) (_minor : Nat) (b : List Nat) (_off : Int) :
    Proc × List Nat × Nat :=
  ({ p with Error := ENXIO }, b, 0)

def errdevWrite (p : Proc) (_minor : Nat) (_b : List Nat) (_off : Int) :
    Proc × Nat :=
  ({ p with Error := ENXIO }, 0)

def errdevClose (p : Proc) (_minor : Nat) : Proc :=
  { p with Error := ENXIO }

def errdevSgtty (p : Proc) (_minor : Nat) (_tin _tout : List Nat) : Proc :=
  { p with Error := ENOTTY }

/-! ### Null device (dev.go) -/

def nulldevOpen (p : Proc) (_minor : Nat) (_rw : Int) : Proc := p

def nulldevRead (p : Proc) (_minor : Nat) (b : List Nat) (_off : Int) :
    Proc × List Nat × Nat :=
  (p, b, 0)

def nulldevWrite (p : Proc) (_minor : Nat) (b : List Nat) (_off : Int) :
    Proc × Nat :=
  (p, b.length)

def nulldevClose (p : Proc) (_minor : Nat) : Proc := p

def nulldevSgtty (p : Proc) (_minor : Nat) (_tin _tout : List Nat) : Proc :=
  { p with Error := ENOTTY }

/-! ### Kernel-memory device (dev.go) -/

def memSwapDev : Int := 780    -- 0o001414
def memProcs : Int := 2694     -- 0o005206
def memTTY : Int := 1024       -- 0o002000
def memTTYSize : Nat := 16 * 2
def memText : Int := 4096      -- 0o010000

/-- Modelled from the spec: `_SLOAD`, "a status flag bit marking it
resident/loaded".  Its numeric value is declared outside the embedded
sources; the claims do not depend on the bit position. -/
def _SLOAD : Nat := 1

/-- Little-endian serialization of a 16-bit field, as the Go struct layout
exposes it byte-for-byte. -/
def enc16 (v : Nat) : List Nat := [v % 256, v / 256 % 256]

/-- Modelled from the spec: the raw bytes of one `procState` record
("concatenating the raw bytes of each process's status record").  The
flag byte, the two 16-bit fields dev.go overwrites, then the untouched
remainder of the record. -/
def procStateBytes (ps : ProcState) : List Nat :=
  ps.flag % 256 :: (enc16 ps.addr ++ enc16 ps.size ++ ps.rest)

/-- The per-entry body of the memProcs loop:
`p1.procState.flag |= _SLOAD; p1.addr = uint16(memText/64 + i); p1.size = 8`,
applied to the `i`-th record. -/
def patchProc (i : Nat) (ps : ProcState) : ProcState :=
  { ps with
    flag := ps.flag ||| _SLOAD
    addr := ((memText / 64).toNat + i) % 65536
    size := 8 }

/-- The memProcs loop over `p.Sys.Procs`, carrying the running index. -/
def patchProcsFrom (i : Nat) : List ProcEntry → List ProcState
  | [] => []
  | q :: qs => patchProc i q.procState :: patchProcsFrom (i + 1) qs

def patchProcs (procs : List ProcEntry) : List ProcState :=
  patchProcsFrom 0 procs

/-- The serialized snapshot `pb`: the raw bytes of the patched records in
table order. -/
def memProcsPayload (procs : List ProcEntry) : List Nat :=
  ((patchProcs procs).map procStateBytes).flatten

/-- Go's `copy(dst, src)`: overwrite the first `min` bytes of `dst` with
`src`, keep the tail of `dst`. -/
def goCopy (dst src : List Nat) : List Nat :=
  src.take dst.length ++ dst.drop src.length

/-- The read path, `func (memdev) read(p *Proc, minor uint8, b []byte, off int) int`.
Returns `some (p, b, n)` — the (unchanged) context, the buffer after the
call, and the transferred count — or `none` where the Go code panics
(`&procs[0]` on an empty table; `p1.Mem[len(p.Mem)-512:]` when the slice
bounds are out of range).  The four offset rules appear in source order. -/
def memdevRead (p : Proc) (_minor : Nat) (b : List Nat) (off : Int) :
    Option (Proc × List Nat × Nat) :=
  if off = memSwapDev ∧ b.length = 2 then
    -- b[0] = 1; b[1] = 3; return 2
    some (p, (b.set 0 1).set 1 3, 2)
  else if off = memProcs then
    -- unsafe.Slice(&procs[0], ...) panics when the table is empty
    if p.Sys.Procs.isEmpty then none
    else
      some (p, goCopy (List.replicate b.length 0) (memProcsPayload p.Sys.Procs),
            (memProcsPayload p.Sys.Procs).length)
  else if memText ≤ off ∧ off < memText + 64 * (p.Sys.Procs.length : Int) ∧
          off.toNat &&& 63 = 0 ∧ b.length = 512 then
    -- p1 := p.Sys.Procs[(off-memText)/64];
    -- p1.Mem[len(p.Mem)-512:] panics when len(p.Mem) < 512
    -- or len(p.Mem)-512 > len(p1.Mem)
    if p.Mem.length < 512 then none
    else if (p.Sys.Procs.getD ((off.toNat - memText.toNat) / 64) default).Mem.length <
            p.Mem.length - 512 then none
    else some (p,
      goCopy b ((p.Sys.Procs.getD ((off.toNat - memText.toNat) / 64) default).Mem.drop
        (p.Mem.length - 512)),
      b.length)
  else if memTTY ≤ off ∧ off < memTTY + (p.Sys.TTY.length : Int) * (memTTYSize : Int) ∧
          (off - memTTY) % (memTTYSize : Int) = 0 ∧ b.length = memTTYSize then
    some (p,
      goCopy (List.replicate b.length 0)
        (p.Sys.TTY.getD ((off.toNat - memTTY.toNat) / memTTYSize) default).TDev,
      (p.Sys.TTY.getD ((off.toNat - memTTY.toNat) / memTTYSize) default).TDev.length)
  else some (p, b, 0)

def memdevOpen (p : Proc) (_minor : Nat) (_rw : Int) : Proc := p

/-- The write path, `func (memdev) write(...) int { p.Error = EPERM; return 0 }`. -/
def memdevWrite (p : Proc) (_minor : Nat) (_b : List Nat) (_off : Int) :
    Proc × Nat :=
  ({ p with Error := EPERM }, 0)

def memdevClose (p : Proc) (_minor : Nat) : Proc := p

def memdevSgtty (p : Proc) (_minor : Nat) (_tin _tout : List Nat) : Proc :=
  { p with Error := ENOTTY }

/-! ### Helper lemmas -/

theorem goCopy_length (dst src : List Nat) : (goCopy dst src).length = dst.length := by
  simp only [goCopy, List.length_append, List.length_take, List.length_drop]
  omega

theorem goCopy_eq_src (dst src : List Nat) (h : src.length = dst.length) :
    goCopy dst src = src := by
  unfold goCopy
  rw [← h, List.take_length, List.drop_eq_nil_of_le (le_of_eq h.symm), List.append_nil]

theorem getD_replicate_zero (n j : Nat) : (List.replicate n (0 : Nat)).getD j 0 = 0 := by
  induction n generalizing j with
  | zero => rfl
  | succ m ih =>
    cases j with
    | zero => rfl
    | succ k => rw [List.replicate_succ, List.getD_cons_succ]; exact ih k

/-- Every byte of the destination at or past the copied payload is zero when
the destination was zero-filled first. -/
theorem getD_goCopy_replicate_past (L : Nat) (src : List Nat) (j : Nat)
    (h : src.length ≤ j) :
    (goCopy (List.replicate L 0) src).getD j 0 = 0 := by
  unfold goCopy
  rw [List.length_replicate]
  have h1 : (src.take L).length ≤ j := by
    rw [List.length_take]; omega
  rw [List.getD_append_right _ _ _ _ h1, List.drop_replicate]
  exact getD_replicate_zero _ _

theorem patchProcsFrom_length (k : Nat) (l : List ProcEntry) :
    (patchProcsFrom k l).length = l.length := by
  induction l generalizing k with
  | nil => rfl
  | cons q qs ih => simp [patchProcsFrom, ih]

theorem patchProcsFrom_getD (k i : Nat) (l : List ProcEntry) (h : i < l.length) :
    (patchProcsFrom k l).getD i default =
      patchProc (k + i) ((l.getD i default).procState) := by
  induction l generalizing k i with
  | nil => simp at h
  | cons q qs ih =>
    cases i with
    | zero => rfl
    | succ j =>
      simp only [patchProcsFrom, List.getD_cons_succ]
      rw [ih (k + 1) j (by simpa using h)]
      have : k + 1 + j = k + (j + 1) := by omega
      rw [this]

theorem procStateBytes_length (ps : ProcState) :
    (procStateBytes ps).length = 5 + ps.rest.length := by
  simp [procStateBytes, enc16]
  omega

theorem patchProcsFrom_payload_length (R k : Nat) (l : List ProcEntry)
    (hR : ∀ q ∈ l, q.procState.rest.length = R) :
    (((patchProcsFrom k l).map procStateBytes).flatten).length = l.length * (5 + R) := by
  induction l generalizing k with
  | nil => simp [patchProcsFrom]
  | cons q qs ih =>
    simp only [patchProcsFrom, List.map_cons, List.flatten_cons, List.length_append,
      List.length_cons]
    rw [procStateBytes_length, ih (k + 1) (fun q hq => hR q (List.mem_cons_of_mem _ hq))]
    have hrest : (patchProc k q.procState).rest = q.procState.rest := rfl
    rw [hrest, hR q (List.mem_cons_self _ _)]
    ring

theorem memProcsPayload_length (R : Nat) (l : List ProcEntry)
    (hR : ∀ q ∈ l, q.procState.rest.length = R) :
    (memProcsPayload l).length = l.length * (5 + R) :=
  patchProcsFrom_payload_length R 0 l hR

theorem and63_eq_mod (x : Nat) : x &&& 63 = x % 64 :=
  Nat.and_pow_two_sub_one_eq_mod x 6

/-- A context with an empty process table and no terminals, used to
instantiate universally quantified claims at a concrete input. -/
def emptyProc : Proc := { Sys := { Procs := [], TTY := [] }, Mem := [], Error := 0 }

/-- A context with one process (flag 0, addr 1234, size 77, two extra record
bytes, a 512-byte memory buffer) and no terminals. -/
def oneProc : Proc :=
  { Sys := { Procs := [{ procState := { flag := 0, addr := 1234, size := 77, rest := [9, 9] },
                         Mem := List.replicate 512 3 }],
             TTY := [] },
    Mem := List.replicate 512 0,
    Error := 0 }

/-! ### Claim theorems -/

/-- C4: for every major number `m`, `dev m` never fails (the result is always
a registered variant), and whenever `m` is at or beyond the table length or
the slot at `m` is unset, the result is the variant returned for major 0. -/
theorem c4_dev_total_fallback :
    (∀ m : Nat, (dev m).isSome = true) ∧
    dev 0 = some device.errdev ∧
    (∀ m : Nat, devtab.length ≤ m ∨ devtab.getD m none = none → dev m = dev 0) := by
  refine ⟨?_, rfl, ?_⟩
  · intro m
    unfold dev
    by_cases h : devtab.length ≤ m ∨ devtab.getD m none = none
    · rw [if_pos h]; rfl
    · rw [if_neg h]
      push_neg at h
      exact Option.isSome_iff_ne_none.mpr h.2
  · intro m h
    unfold dev
    rw [if_pos h]
    rfl

/-- C4 witness: major 9 is out of the 5-entry table, and resolves to the
same variant as major 0. -/
theorem c4_dev_total_fallback_witness : dev 9 = dev 0 :=
  c4_dev_total_fallback.2.2 9 (Or.inl (by decide))

/-- C5: a kernel-memory read at the swap-probe offset 780 with a 2-byte
destination writes bytes 1 and 3 and transfers 2; with any other
destination length it transfers 0 and leaves the buffer untouched. -/
theorem c5_swap_probe (p : Proc) (minor : Nat) (b : List Nat) :
    (b.length = 2 → memdevRead p minor b 780 = some (p, [1, 3], 2)) ∧
    (b.length ≠ 2 → memdevRead p minor b 780 = some (p, b, 0)) := by
  constructor
  · intro h
    obtain ⟨x, y, rfl⟩ : ∃ x y, b = [x, y] := by
      match b, h with
      | [x, y], _ => exact ⟨x, y, rfl⟩
    unfold memdevRead
    rw [if_pos ⟨rfl, rfl⟩]
    rfl
  · intro h
    unfold memdevRead
    rw [if_neg (fun hc => h hc.2), if_neg (by decide),
        if_neg (fun hc => absurd hc.1 (by decide)),
        if_neg (fun hc => absurd hc.1 (by decide))]

/-- C5 witness: the probe at offset 780 on a concrete context, once with a
2-byte buffer and once with an empty buffer. -/
theorem c5_swap_probe_witness :
    memdevRead emptyProc 0 [0, 0] 780 = some (emptyProc, [1, 3], 2) ∧
    memdevRead emptyProc 0 [] 780 = some (emptyProc, [], 0) :=
  ⟨(c5_swap_probe emptyProc 0 [0, 0]).1 (by decide),
   (c5_swap_probe emptyProc 0 []).2 (by decide)⟩

/-- C7: every write through the kernel-memory device sets EPERM on the
calling context, returns a transferred count of 0, and changes nothing
else (the process table, terminals and memory are untouched). -/
theorem c7_memdev_write (p : Proc) (minor : Nat) (b : List Nat) (off : Int) :
    memdevWrite p minor b off = ({ p with Error := EPERM }, 0) ∧
    (memdevWrite p minor b off).1.Sys = p.Sys ∧
    (memdevWrite p minor b off).1.Mem = p.Mem :=
  ⟨rfl, rfl, rfl⟩

/-- C8: every error-device operation sets ENXIO (ENOTTY for sgtty) on the
calling context, and read/write transfer 0 bytes. -/
theorem c8_errdev_ops (p : Proc) (minor : Nat) (b : List Nat) (off : Int)
    (tin tout : List Nat) (rwflag : Int) :
    (errdevOpen p minor rwflag).Error = ENXIO ∧
    errdevRead p minor b off = ({ p with Error := ENXIO }, b, 0) ∧
    errdevWrite p minor b off = ({ p with Error := ENXIO }, 0) ∧
    (errdevClose p minor).Error = ENXIO ∧
    (errdevSgtty p minor tin tout).Error = ENOTTY :=
  ⟨rfl, rfl, rfl, rfl, rfl⟩

/-- C9: the null device's write transfers `len b`, its read transfers 0,
open/close/read/write leave the context (hence the last-error field)
unchanged, and sgtty sets ENOTTY. -/
theorem c9_nulldev_ops (p : Proc) (minor : Nat) (b : List Nat) (off : Int)
    (tin tout : List Nat) (rwflag : Int) :
    nulldevWrite p minor b off = (p, b.length) ∧
    nulldevRead p minor b off = (p, b, 0) ∧
    nulldevOpen p minor rwflag = p ∧
    nulldevClose p minor = p ∧
    nulldevSgtty p minor tin tout = { p with Error := ENOTTY } :=
  ⟨rfl, rfl, rfl, rfl, rfl⟩

/-- C10: the device table has exactly 5 entries, all set; every major from
5 through 255 resolves to the error device, whose operations set ENXIO
(ENOTTY for sgtty) and transfer 0 bytes. -/
theorem c10_unmapped_majors (m : Nat) (h5 : 5 ≤ m) (h255 : m ≤ 255)
    (p : Proc) (minor : Nat) (b : List Nat) (off : Int)
    (tin tout : List Nat) (rwflag : Int) :
    devtab.length = 5 ∧ (∀ d ∈ devtab, d.isSome = true) ∧
    dev m = some device.errdev ∧
    (errdevOpen p minor rwflag).Error = ENXIO ∧
    (errdevRead p minor b off).1.Error = ENXIO ∧
    (errdevRead p minor b off).2.2 = 0 ∧
    (errdevWrite p minor b off).1.Error = ENXIO ∧
    (errdevWrite p minor b off).2 = 0 ∧
    (errdevClose p minor).Error = ENXIO ∧
    (errdevSgtty p minor tin tout).Error = ENOTTY := by
  refine ⟨rfl, by decide, ?_, rfl, rfl, rfl, rfl, rfl, rfl, rfl⟩
  unfold dev
  rw [if_pos (Or.inl (show devtab.length ≤ m by simp [devtab]; omega))]
  rfl

/-- C10 witness: major 200 resolves to the error device. -/
theorem c10_unmapped_majors_witness : dev 200 = some device.errdev :=
  (c10_unmapped_majors 200 (by decide) (by decide) emptyProc 0 [] 0 [] [] 0).2.2.1

/-- C6: every code in the contiguous range 1–31 renders as its fixed table
name and looking that name up again recovers the code; 106 renders as the
literal "EFAULT"; every other int8 value, 0 and negatives included, renders
as the fallback string embedding that exact numeric value. -/
theorem c6_errno_render :
    (∀ n : Nat, n ≤ 31 → 1 ≤ n →
      errnoError (n : Int) = enames.getD n "" ∧
      enames.indexOf (errnoError (n : Int)) = n) ∧
    errnoError 106 = "EFAULT" ∧
    (∀ e : Int, -128 ≤ e → e ≤ 127 → e ≤ 0 ∨ 32 ≤ e → e ≠ 106 →
      errnoError e = "Errno(" ++ toString e ++ ")") := by
  refine ⟨by decide, rfl, ?_⟩
  intro e h1 h2 h3 h4
  unfold errnoError
  rw [if_neg (by simpa [EFAULT] using h4), if_neg ?_]
  rintro ⟨he0, hlt, hne⟩
  rcases h3 with h3 | h3
  · rcases eq_or_lt_of_le h3 with heq | hlt0
    · rw [heq] at hne
      exact hne rfl
    · omega
  · have : enames.length = 32 := rfl
    omega

/-- C6 witness: code 5 renders as "EIO" and is recovered by lookup; −3 is
unnamed and renders through the fallback. -/
theorem c6_errno_render_witness :
    errnoError 5 = "EIO" ∧ enames.indexOf (errnoError 5) = 5 ∧
    errnoError (-3) = "Errno(-3)" := by
  have h1 := c6_errno_render.1 5 (by decide) (by decide)
  have h2 := c6_errno_render.2.2 (-3) (by decide) (by decide) (Or.inl (by decide)) (by decide)
  exact ⟨h1.1.trans (by decide), h1.2, h2.trans (by decide)⟩

/-- C1 counterexample: on an empty process table, a kernel-memory read at
the process-table offset 2694 faults (Go panics at `&procs[0]`, modelled
as `none`) rather than returning a transferred count of `0 × record_size`,
so the claim's "including N = 0" case is false. -/
theorem c1_procs_snapshot_counterexample :
    memdevRead emptyProc 0 (List.replicate 8 0) 2694 = none ∧
    ¬ ∃ out : Proc × List Nat × Nat,
        memdevRead emptyProc 0 (List.replicate 8 0) 2694 = some out ∧
        out.2.2 = 0 := by
  have h : memdevRead emptyProc 0 (List.replicate 8 0) 2694 = none := by decide
  exact ⟨h, fun ⟨out, hout, _⟩ => by rw [h] at hout; exact Option.noConfusion hout⟩

/-- C1 (amended): for every process collection of size N ≥ 1 and uniform
record-remainder length R, a kernel-memory read at the process-table offset
2694 transfers `N × (5 + R)` bytes (N times the record size); the i-th
snapshot record carries base address `(4096/64 + i) mod 2^16` and size 8
with the resident flag set, regardless of the live values; the destination
is zero-filled first and then receives the serialized records, so every
destination byte at or past the payload is zero. -/
theorem c1_procs_snapshot (p : Proc) (minor : Nat) (b : List Nat) (R : Nat)
    (hne : p.Sys.Procs ≠ [])
    (hR : ∀ q ∈ p.Sys.Procs, q.procState.rest.length = R) :
    memdevRead p minor b 2694 =
      some (p, goCopy (List.replicate b.length 0) (memProcsPayload p.Sys.Procs),
            p.Sys.Procs.length * (5 + R)) ∧
    (∀ i, i < p.Sys.Procs.length →
      ((patchProcs p.Sys.Procs).getD i default).addr = (64 + i) % 65536 ∧
      ((patchProcs p.Sys.Procs).getD i default).size = 8 ∧
      ((patchProcs p.Sys.Procs).getD i default).flag =
        ((p.Sys.Procs.getD i default).procState.flag ||| _SLOAD) ∧
      ((patchProcs p.Sys.Procs).getD i default).rest =
        (p.Sys.Procs.getD i default).procState.rest) ∧
    (∀ j, p.Sys.Procs.length * (5 + R) ≤ j →
      (goCopy (List.replicate b.length 0) (memProcsPayload p.Sys.Procs)).getD j 0
        = 0) := by
  have hlen := memProcsPayload_length R p.Sys.Procs hR
  refine ⟨?_, ?_, ?_⟩
  · unfold memdevRead
    rw [if_neg (fun hc => absurd hc.1 (by decide)),
        if_pos (show (2694 : Int) = memProcs from rfl),
        if_neg (by simpa [List.isEmpty_iff] using hne)]
    show some (p, goCopy (List.replicate b.length 0) (memProcsPayload p.Sys.Procs),
          (memProcsPayload p.Sys.Procs).length) = _
    rw [hlen]
  · intro i hi
    unfold patchProcs
    rw [patchProcsFrom_getD 0 i _ hi]
    refine ⟨?_, rfl, rfl, rfl⟩
    show ((memText / 64).toNat + (0 + i)) % 65536 = (64 + i) % 65536
    have h64 : (memText / 64).toNat = 64 := rfl
    rw [h64, Nat.zero_add]
  · intro j hj
    exact getD_goCopy_replicate_past _ _ _ (by rw [hlen]; exact hj)

set_option maxRecDepth 8000 in
/-- C1 witness: one process with record remainder [9, 9]; the snapshot at
offset 2694 into a 10-byte buffer is the 7 patched record bytes
(flag 1, addr 64, size 8, remainder) followed by zeros, count 7. -/
theorem c1_procs_snapshot_witness :
    memdevRead oneProc 0 (List.replicate 10 5) 2694 =
      some (oneProc, [1, 64, 0, 8, 0, 9, 9, 0, 0, 0], 7) := by
  have h := (c1_procs_snapshot oneProc 0 (List.replicate 10 5) 2
    (by decide) (by decide)).1
  exact h.trans (by decide)

/-- C2: with the repository's shape invariants (every process memory buffer
has the caller's memory length, which is at least 512, and the terminal
window ends below 4096), reading 512 bytes at offset `4096 + 64·i` for a
valid index i transfers exactly the last 512 bytes of process i's memory
buffer; at any in-window offset that is not a multiple of 64, or with any
destination length other than 512, the read transfers 0. -/
theorem c2_per_proc_read (p : Proc) (minor : Nat) (b : List Nat) (off : Int)
    (hT : 1024 + 32 * (p.Sys.TTY.length : Int) ≤ 4096)
    (hL : 512 ≤ p.Mem.length)
    (heq : ∀ q ∈ p.Sys.Procs, q.Mem.length = p.Mem.length) :
    (∀ i : Nat, i < p.Sys.Procs.length → b.length = 512 →
      memdevRead p minor b (4096 + 64 * (i : Int)) =
        some (p,
          (p.Sys.Procs.getD i default).Mem.drop
            ((p.Sys.Procs.getD i default).Mem.length - 512), 512)) ∧
    (4096 ≤ off → off < 4096 + 64 * (p.Sys.Procs.length : Int) →
      off % 64 ≠ 0 → memdevRead p minor b off = some (p, b, 0)) ∧
    (4096 ≤ off → off < 4096 + 64 * (p.Sys.Procs.length : Int) →
      b.length ≠ 512 → memdevRead p minor b off = some (p, b, 0)) := by
  refine ⟨?_, ?_, ?_⟩
  · intro i hi hb
    have hmem : p.Sys.Procs.getD i default ∈ p.Sys.Procs := by
      rw [List.getD_eq_getElem _ _ hi]; exact List.getElem_mem hi
    have hp1 : (p.Sys.Procs.getD i default).Mem.length = p.Mem.length :=
      heq _ hmem
    unfold memdevRead
    rw [if_neg (fun hc => by have := hc.1; simp [memSwapDev] at this; omega),
        if_neg (fun hc => by simp [memProcs] at hc; omega),
        if_pos (show memText ≤ 4096 + 64 * (i : Int) ∧ _ ∧ _ ∧ _ from
          ⟨by simp only [memText]; omega,
           by simp only [memText]; omega,
           by rw [and63_eq_mod]; omega,
           hb⟩)]
    have hidx : (((4096 : Int) + 64 * (i : Int)).toNat - memText.toNat) / 64 = i := by
      simp only [memText, Int.toNat_ofNat]; omega
    rw [hidx, if_neg (by omega), if_neg (by omega)]
    rw [hb, ← hp1]
    rw [goCopy_eq_src _ _ (by rw [List.length_drop]; omega)]
  · intro h1 h2 h3
    unfold memdevRead
    rw [if_neg (fun hc => by rw [hc.1] at h1; revert h1; decide),
        if_neg (fun hc => by rw [hc] at h1; revert h1; decide),
        if_neg (fun hc => ?_), if_neg (fun hc => ?_)]
    · have hlt := hc.2.1
      simp [memTTY, memTTYSize] at hlt
      omega
    · have hand := hc.2.2.1
      rw [and63_eq_mod] at hand
      exact h3 (by omega)
  · intro h1 h2 h3
    unfold memdevRead
    rw [if_neg (fun hc => by rw [hc.1] at h1; revert h1; decide),
        if_neg (fun hc => by rw [hc] at h1; revert h1; decide),
        if_neg (fun hc => h3 hc.2.2.2),
        if_neg (fun hc => ?_)]
    have hlt := hc.2.1
    simp [memTTY, memTTYSize] at hlt
    omega

set_option maxRecDepth 100000 in
/-- C2 witness: the one-process context; reading 512 bytes at offset 4096
yields that process's whole 512-byte memory with count 512, and a read at
the unaligned in-window offset 4100 transfers 0. -/
theorem c2_per_proc_read_witness :
    memdevRead oneProc 0 (List.replicate 512 0) (4096 + 64 * ((0 : Nat) : Int)) =
      some (oneProc, List.replicate 512 3, 512) ∧
    memdevRead oneProc 0 (List.replicate 512 0) 4100 =
      some (oneProc, List.replicate 512 0, 0) := by
  constructor
  · have h := (c2_per_proc_read oneProc 0 (List.replicate 512 0) 0
      (by decide) (by decide) (by decide)).1 0 (by decide) (by decide)
    exact h.trans (by decide)
  · exact (c2_per_proc_read oneProc 0 (List.replicate 512 0) 4100
      (by decide) (by decide) (by decide)).2.1 (by decide) (by decide) (by decide)

/-- C3: a kernel-memory read at the process-table offset leaves the live
process table untouched: whenever the call returns, the table is unchanged
and every record's flag, base-address and size fields keep their prior
values (the patching is confined to the emitted snapshot copies). -/
theorem c3_snapshot_frame (p : Proc) (minor : Nat) (b : List Nat)
    (out : Proc × List Nat × Nat)
    (h : memdevRead p minor b 2694 = some out) :
    out.1.Sys.Procs = p.Sys.Procs ∧
    ∀ i, i < p.Sys.Procs.length →
      (out.1.Sys.Procs.getD i default).procState.flag =
        (p.Sys.Procs.getD i default).procState.flag ∧
      (out.1.Sys.Procs.getD i default).procState.addr =
        (p.Sys.Procs.getD i default).procState.addr ∧
      (out.1.Sys.Procs.getD i default).procState.size =
        (p.Sys.Procs.getD i default).procState.size := by
  have hp : out.1 = p := by
    unfold memdevRead at h
    rw [if_neg (fun hc => absurd hc.1 (by decide)),
        if_pos (show (2694 : Int) = memProcs from rfl)] at h
    by_cases he : p.Sys.Procs.isEmpty
    · rw [if_pos he] at h
      exact absurd h (by simp)
    · rw [if_neg he] at h
      have h' : some (p, goCopy (List.replicate b.length 0)
            (memProcsPayload p.Sys.Procs),
            (memProcsPayload p.Sys.Procs).length) = some out := h
      rw [← Option.some.inj h']
  rw [hp]
  exact ⟨rfl, fun i _ => ⟨rfl, rfl, rfl⟩⟩

set_option maxRecDepth 8000 in
/-- C3 witness: on the one-process context the successful snapshot read
returns the table unchanged. -/
theorem c3_snapshot_frame_witness :
    ((oneProc, ([1, 64, 0, 8, 0, 9, 9, 0, 0, 0] : List Nat), (7 : Nat)) :
      Proc × List Nat × Nat).1.Sys.Procs = oneProc.Sys.Procs :=
  (c3_snapshot_frame oneProc 0 (List.replicate 10 5)
    (oneProc, [1, 64, 0, 8, 0, 9, 9, 0, 0, 0], 7) (by decide)).1

end V6unix
